import Mathlib

/-!
Shallow embedding of `src/callbacks/callbacks.py` (training-loop callbacks:
LRSchedule, History, ModelCheckpoint, LambdaCallbackPickableEveryKExamples,
MetaSaver) together with theorems checking the specification claims.

Conventions of the embedding:
* a Python `logs` dict (metric name to numeric value) is an insertion-ordered
  association list `Logs`;
* numpy float values compared by `np.less` / `np.greater` are modelled by
  `NpVal` (a rational, or one of the two infinities used as initial `best`);
* an `assert` failure (missing `size` key) makes the embedded hook return
  `none`; `exit(0)` and the `cp` assert of MetaSaver are explicit outcome
  constructors;
* file writes (`save_weights`, `json.dump`) are recorded as observable flags
  or fields of the returned value, since the claims only concern whether and
  with what content they happen.
-/

/-- A logs dictionary: insertion-ordered association list from metric name to
numeric value (the claims only exercise numeric entries). -/
abbrev Logs := List (String × ℚ)

/-- `logs.get(key)`: first binding of `key`, like `dict.get` (None when absent). -/
def Logs.get (logs : Logs) (key : String) : Option ℚ :=
  (logs.find? (fun p => p.1 == key)).map Prod.snd

/-- `logs[key] = v`: replace the first binding of `key`, or append a new one
(Python dicts keep insertion order and update in place). -/
def Logs.set (logs : Logs) (key : String) (v : ℚ) : Logs :=
  match logs with
  | [] => [(key, v)]
  | (k, w) :: rest => if k == key then (key, v) :: rest else (k, w) :: Logs.set rest key v

/-- A numpy scalar as compared by `np.less`/`np.greater`: a finite rational or
one of the infinities `np.Inf` / `-np.Inf` used as the initial `best`. -/
inductive NpVal
  | negInf
  | val (q : ℚ)
  | posInf
deriving DecidableEq

/-- Strict order of `NpVal`, matching IEEE comparison on these values. -/
def NpVal.lt : NpVal → NpVal → Bool
  | NpVal.negInf, NpVal.negInf => false
  | NpVal.negInf, _ => true
  | _, NpVal.negInf => false
  | NpVal.posInf, _ => false
  | NpVal.val _, NpVal.posInf => true
  | NpVal.val a, NpVal.val b => decide (a < b)

/-- The comparison operator stored in `self.monitor_op`: `np.less` or
`np.greater`. -/
inductive MonitorOp
  | less
  | greater
deriving DecidableEq

/-- `self.monitor_op(current, best)`. -/
def MonitorOp.apply : MonitorOp → NpVal → NpVal → Bool
  | MonitorOp.less, a, b => NpVal.lt a b
  | MonitorOp.greater, a, b => NpVal.lt b a

/-- Does `pat` occur at the head of `s` (character list comparison)? -/
def leadMatch : List Char → List Char → Bool
  | [], _ => true
  | _ :: _, [] => false
  | a :: as, b :: bs => a == b && leadMatch as bs

/-- Python `pat in s` on strings: substring containment over character lists. -/
def hasSub (pat : List Char) : List Char → Bool
  | [] => leadMatch pat []
  | c :: rest => leadMatch pat (c :: rest) || hasSub pat rest

/-! ## ModelCheckpoint -/

/-- The `ModelCheckpoint` object: its `__dict__` after `__init__`. The model and
optimizer references are abstract handles (their internals are never inspected
by the callback, only passed to `save_weights`). -/
structure ModelCheckpoint where
  monitor : String
  optimizer : ℕ
  verbose : ℕ
  filepath : String
  model : ℕ
  save_best_only : Bool
  period : ℕ
  epochs_since_last_save : ℕ
  monitor_op : MonitorOp
  best : NpVal
deriving DecidableEq

/-- `ModelCheckpoint.__init__` (argument order of the source). Invalid `mode`
strings are replaced by `auto`; `auto` infers `max` when the monitor name
contains `acc` or starts with `fmeasure`, else `min`. -/
def ModelCheckpoint.init (filepath : String) (model optimizer : ℕ) (monitor : String)
    (verbose : ℕ) (save_best_only : Bool) (mode : String) (period : ℕ) : ModelCheckpoint :=
  let mode := if !(mode == "auto" || mode == "min" || mode == "max") then "auto" else mode
  let opBest : MonitorOp × NpVal :=
    if mode == "min" then (MonitorOp.less, NpVal.posInf)
    else if mode == "max" then (MonitorOp.greater, NpVal.negInf)
    else
      if hasSub "acc".toList monitor.toList || leadMatch "fmeasure".toList monitor.toList then
        (MonitorOp.greater, NpVal.negInf)
      else
        (MonitorOp.less, NpVal.posInf)
  { monitor := monitor, optimizer := optimizer, verbose := verbose, filepath := filepath,
    model := model, save_best_only := save_best_only, period := period,
    epochs_since_last_save := 0, monitor_op := opBest.1, best := opBest.2 }

/-- The pickled state of a `ModelCheckpoint`: `__getstate__` copies the dict and
deletes the `model` and `optimizer` entries. -/
structure MCState where
  monitor : String
  verbose : ℕ
  filepath : String
  save_best_only : Bool
  period : ℕ
  epochs_since_last_save : ℕ
  monitor_op : MonitorOp
  best : NpVal
deriving DecidableEq

/-- `ModelCheckpoint.__getstate__`. -/
def ModelCheckpoint.getstate (c : ModelCheckpoint) : MCState :=
  { monitor := c.monitor, verbose := c.verbose, filepath := c.filepath,
    save_best_only := c.save_best_only, period := c.period,
    epochs_since_last_save := c.epochs_since_last_save,
    monitor_op := c.monitor_op, best := c.best }

/-- `ModelCheckpoint.__setstate__`: the restored dict is `newstate` with the
`model` and `optimizer` entries taken from the object it is called on. -/
def ModelCheckpoint.setstate (self : ModelCheckpoint) (newstate : MCState) : ModelCheckpoint :=
  { monitor := newstate.monitor, verbose := newstate.verbose, filepath := newstate.filepath,
    save_best_only := newstate.save_best_only, period := newstate.period,
    epochs_since_last_save := newstate.epochs_since_last_save,
    monitor_op := newstate.monitor_op, best := newstate.best,
    model := self.model, optimizer := self.optimizer }

/-- Observable outcome of one `ModelCheckpoint.on_epoch_end` call: the updated
object, whether `save_weights` ran, and whether the missing-monitor warning was
logged. -/
structure MCResult where
  state : ModelCheckpoint
  saved : Bool
  warned : Bool
deriving DecidableEq

/-- `ModelCheckpoint.on_epoch_end`, translated branch by branch from the
source. Note that in the `save_best_only = false` branch the source has the
`save_weights` call indented inside `if self.verbose > 0`, so no save happens
there when `verbose = 0`. -/
def ModelCheckpoint.on_epoch_end (c : ModelCheckpoint) (epoch : ℕ) (logs : Logs) : MCResult :=
  let _ := epoch
  let c := { c with epochs_since_last_save := c.epochs_since_last_save + 1 }
  if c.epochs_since_last_save ≥ c.period then
    let c := { c with epochs_since_last_save := 0 }
    if c.save_best_only then
      match Logs.get logs c.monitor with
      | none => { state := c, saved := false, warned := true }
      | some current =>
        if c.monitor_op.apply (NpVal.val current) c.best then
          { state := { c with best := NpVal.val current }, saved := true, warned := false }
        else
          { state := c, saved := false, warned := false }
    else
      if c.verbose > 0 then
        { state := c, saved := true, warned := false }
      else
        { state := c, saved := false, warned := false }
  else
    { state := c, saved := false, warned := false }

/-- Drive a `ModelCheckpoint` through successive `on_epoch_end` calls, one per
monitored value, collecting the save decisions. -/
def runMC : ModelCheckpoint → ℕ → List ℚ → ModelCheckpoint × List Bool
  | c, _, [] => (c, [])
  | c, e, v :: vs =>
    let r := c.on_epoch_end e [(c.monitor, v)]
    let rest := runMC r.state (e + 1) vs
    (rest.1, r.saved :: rest.2)

/-! ## LambdaCallbackPickableEveryKExamples -/

/-- Counter state of `LambdaCallbackPickableEveryKExamples` (the wrapped
`on_k_examples` function is external and excluded from the state, exactly as
`__getstate__` drops it). -/
structure LambdaKState where
  examples_seen : ℚ
  call_after_first_batch : Bool
  examples_seen_since_last_call : ℚ
  k : ℚ
  calls : ℕ
deriving DecidableEq

/-- `LambdaCallbackPickableEveryKExamples.__init__` counter fields. -/
def LambdaK.init (k : ℚ) (call_after_first_batch : Bool) : LambdaKState :=
  { examples_seen := 0, call_after_first_batch := call_after_first_batch,
    examples_seen_since_last_call := 0, k := k, calls := 0 }

/-- `LambdaCallbackPickableEveryKExamples.on_batch_end`: `none` models the
`assert "size" in logs` failure; the returned Bool tells whether
`on_k_examples` was invoked on this call. -/
def LambdaK.on_batch_end (s : LambdaKState) (batch : ℕ) (logs : Logs) :
    Option (LambdaKState × Bool) :=
  match Logs.get logs "size" with
  | none => none
  | some size =>
    let s := { s with examples_seen := s.examples_seen + size,
                      examples_seen_since_last_call := s.examples_seen_since_last_call + size }
    if (s.call_after_first_batch && batch == 1) || s.examples_seen_since_last_call > s.k then
      some ({ s with examples_seen_since_last_call := 0, calls := s.calls + 1 }, true)
    else
      some (s, false)

/-- Drive the callback over a list of batch indices with the same fresh logs
each call, collecting for every call whether it fired and the value of the
since-last-fire counter right after the call. -/
def runLambdaK : LambdaKState → List ℕ → Logs → Option (LambdaKState × List (Bool × ℚ))
  | s, [], _ => some (s, [])
  | s, b :: bs, logs =>
    match LambdaK.on_batch_end s b logs with
    | none => none
    | some (s', fired) =>
      match runLambdaK s' bs logs with
      | none => none
      | some (s'', tr) => some (s'', (fired, s'.examples_seen_since_last_call) :: tr)

/-! ## History -/

/-- An accumulator mapping a metric name to the list of values appended for it
(`dict` of lists built with `setdefault(k, []).append(v)`). -/
abbrev Accum := List (String × List ℚ)

/-- `m.setdefault(k, []).append(v)` on the accumulator. -/
def appendEntry : Accum → String → ℚ → Accum
  | [], key, v => [(key, [v])]
  | (k, vs) :: rest, key, v =>
    if k == key then (k, vs ++ [v]) :: rest else (k, vs) :: appendEntry rest key v

/-- The list accumulated for `key` (empty when `key` is absent). -/
def entryList : Accum → String → List ℚ
  | [], _ => []
  | (k, vs) :: rest, key => if k == key then vs else entryList rest key

/-- Append every entry of `logs` to the accumulator, in order, as the source
`for k, v in logs.items(): ...setdefault(k, []).append(v)` loop does. -/
def appendLogs (logs : Logs) (m : Accum) : Accum :=
  logs.foldl (fun acc p => appendEntry acc p.1 p.2) m

/-- The `History` object after `on_train_begin`: counters, threshold, the two
accumulators, and whether the model has received the `history_batch` attribute
(the `setattr` side effect on the bound model). -/
structure History where
  examples_seen : ℚ
  save_every_k_examples : ℚ
  examples_seen_since_last_population : ℚ
  history : Accum
  history_batch : Accum
  model_has_history_batch : Bool
deriving DecidableEq

/-- `History.__init__` followed by `on_train_begin` (which resets the two
accumulators). -/
def History.init (save_every_k_examples : ℚ) : History :=
  { examples_seen := 0, save_every_k_examples := save_every_k_examples,
    examples_seen_since_last_population := 0, history := [], history_batch := [],
    model_has_history_batch := false }

/-- `History.on_batch_end`: `none` models the `assert "size" in logs` failure.
Returns the updated state together with the mutated logs (the injected
`examples_seen` key is visible to later callbacks). -/
def History.on_batch_end (h : History) (logs : Logs) : Option (History × Logs) :=
  if h.save_every_k_examples ≠ -1 then
    let h1 := if h.model_has_history_batch then h else { h with model_has_history_batch := true }
    match Logs.get logs "size" with
    | none => none
    | some size =>
      let h2 := { h1 with examples_seen := h1.examples_seen + size }
      let logs2 := Logs.set logs "examples_seen" h2.examples_seen
      let h3 := { h2 with examples_seen_since_last_population :=
                    h2.examples_seen_since_last_population + size }
      if h3.examples_seen_since_last_population > h3.save_every_k_examples then
        some ({ h3 with history_batch := appendLogs logs2 h3.history_batch,
                        examples_seen_since_last_population := 0 }, logs2)
      else
        some (h3, logs2)
  else
    some (h, logs)

/-- Iterate `History.on_batch_end` n times, a fresh copy of the same logs dict
each call (as the training loop supplies a new logs map per batch). -/
def runHistoryBatches (h0 : History) (logs : Logs) : ℕ → Option History
  | 0 => some h0
  | n + 1 =>
    match runHistoryBatches h0 logs n with
    | none => none
    | some h =>
      match History.on_batch_end h logs with
      | none => none
      | some hl => some hl.1

/-- Number of populations of the batch accumulator after driving a fresh
History with threshold K through n batches of constant size B: the length of
the list accumulated under the `size` key. -/
def histPops (K B : ℕ) (n : ℕ) : Option ℕ :=
  (runHistoryBatches (History.init (K : ℚ)) [("size", (B : ℚ))] n).map
    (fun h => (entryList h.history_batch "size").length)

/-! ## LRSchedule -/

/-- The `for e, v in self.schedule: if epoch < e: break` loop: the value bound
to `v` when the loop exits, `none` when the schedule is empty (in the source an
empty schedule leaves `v` unbound, a NameError). -/
def lrSelect : List (ℕ × ℚ) → ℕ → Option ℚ
  | [], _ => none
  | [(_, v)], _ => some v
  | (e, v) :: p :: rest, epoch =>
    if epoch < e then some v else lrSelect (p :: rest) epoch

/-- `LRSchedule.on_epoch_begin`: writes the selected rate into every optimizer
parameter group (each group modelled by its learning-rate field). -/
def LRSchedule.on_epoch_begin (schedule : List (ℕ × ℚ)) (epoch : ℕ)
    (param_groups : List ℚ) : Option (List ℚ) :=
  match lrSelect schedule epoch with
  | none => none
  | some v => some (param_groups.map (fun _ => v))

/-- The rate the spec describes: the rate of the first schedule entry whose
threshold is strictly greater than the epoch, or the last entry on fallthrough. -/
def specLRRate (schedule : List (ℕ × ℚ)) (epoch : ℕ) : Option ℚ :=
  match schedule.find? (fun p => decide (epoch < p.1)) with
  | some p => some p.2
  | none => (schedule.getLast?).map Prod.snd

/-! ## MetaSaver -/

/-- The json document MetaSaver writes as `meta.json` at train begin. -/
structure MetaDoc where
  cmd : String
  save_path : String
  start_utc_date : String
  execution_time : ℚ
deriving DecidableEq

/-- The slice of the filesystem MetaSaver touches in the output directory. -/
structure MetaFS where
  finished_exists : Bool
  script_copied : Bool
  config_json : Option String
  meta_json : Option MetaDoc
deriving DecidableEq

/-- Outcome of `MetaSaver.on_train_begin`: `exit(0)` on the sentinel, assert
failure when the `cp` of the entry script fails, or the updated filesystem. -/
inductive MetaBeginResult
  | exitSuccess
  | assertFail
  | ok (fs : MetaFS)
deriving DecidableEq

/-- `MetaSaver.on_train_begin`. External inputs (entry-point command line, UTC
date, clock) are parameters; `config` is the serialized configuration document. -/
def MetaSaver.on_train_begin (force_train : Bool) (save_path : String) (fs : MetaFS)
    (cp_ok : Bool) (cmd utc_date : String) (time_start : ℚ) (config : String) :
    MetaBeginResult :=
  if fs.finished_exists && !force_train then
    MetaBeginResult.exitSuccess
  else if !cp_ok then
    MetaBeginResult.assertFail
  else
    MetaBeginResult.ok
      { fs with script_copied := true,
                config_json := some config,
                meta_json := some { cmd := cmd, save_path := save_path,
                                    start_utc_date := utc_date,
                                    execution_time := -time_start } }

/-! ## Helper lemmas -/

/-- Firing always resets the since-last-fire counter to zero. -/
theorem lambdaK_fire_resets (s : LambdaKState) (batch : ℕ) (logs : Logs)
    (s' : LambdaKState) (h : LambdaK.on_batch_end s batch logs = some (s', true)) :
    s'.examples_seen_since_last_call = 0 := by
  unfold LambdaK.on_batch_end at h
  cases hg : Logs.get logs "size" with
  | none => rw [hg] at h; cases h
  | some size =>
    rw [hg] at h
    dsimp only at h
    split at h
    · cases h; rfl
    · cases h

/-! ## Claim theorems -/

/-- C1: with `save_best_only = False` and `period = 2` the source saves on the
2nd `on_epoch_end` only when `verbose > 0`: `save_weights` is indented inside
the `if self.verbose > 0` block, so at the default `verbose = 0` no save ever
happens in this branch, contradicting the claim that every 2nd call serializes
the weights for every verbose setting. -/
theorem mc_period_save_only_when_verbose :
    (runMC (ModelCheckpoint.init "weights.pt" 0 0 "val_loss" 0 false "auto" 2)
        0 [1, 1, 1, 1]).2 = [false, false, false, false] ∧
    (runMC (ModelCheckpoint.init "weights.pt" 0 0 "val_loss" 1 false "auto" 2)
        0 [1, 1, 1, 1]).2 = [false, true, false, true] := by
  constructor <;> decide

/-- C2 counterexample: with `k = 100`, `call_after_first_batch = True` and
batch size 10, after the reset at batch 1 the since-last-fire counter reaches
exactly 100 at batch 11, which does not strictly exceed `k`, so `on_k_examples`
is NOT invoked at batch 11 (the trace lists, call by call, whether the callback
fired and the counter value after the call). -/
theorem lambda_k_no_fire_at_batch_11 :
    runLambdaK (LambdaK.init 100 true) [1, 2, 3, 4, 5, 6, 7, 8, 9, 10, 11]
        [("size", 10)] =
      some ({ examples_seen := 110, call_after_first_batch := true,
              examples_seen_since_last_call := 100, k := 100, calls := 1 },
            [(true, 0), (false, 10), (false, 20), (false, 30), (false, 40),
             (false, 50), (false, 60), (false, 70), (false, 80), (false, 90),
             (false, 100)]) := by
  norm_num [runLambdaK, LambdaK.on_batch_end, LambdaK.init, Logs.get, List.find?]

/-- C2 amended: with `k = 100`, `call_after_first_batch = True` and batch size
10 the wrapped function is invoked at batch 1 (first-batch rule) and next at
batch 12, the first batch at which the since-last-fire counter strictly
exceeds 100; and whenever the callback fires, the since-last-fire counter is
reset to 0. -/
theorem lambda_k_fires_at_1_and_12 :
    (runLambdaK (LambdaK.init 100 true) [1, 2, 3, 4, 5, 6, 7, 8, 9, 10, 11, 12]
        [("size", 10)] =
      some ({ examples_seen := 120, call_after_first_batch := true,
              examples_seen_since_last_call := 0, k := 100, calls := 2 },
            [(true, 0), (false, 10), (false, 20), (false, 30), (false, 40),
             (false, 50), (false, 60), (false, 70), (false, 80), (false, 90),
             (false, 100), (true, 0)])) ∧
    ∀ (s : LambdaKState) (batch : ℕ) (logs : Logs) (s' : LambdaKState),
      LambdaK.on_batch_end s batch logs = some (s', true) →
      s'.examples_seen_since_last_call = 0 := by
  refine ⟨?_, lambdaK_fire_resets⟩
  norm_num [runLambdaK, LambdaK.on_batch_end, LambdaK.init, Logs.get, List.find?]

/-- C2 witness: the reset clause of `lambda_k_fires_at_1_and_12` applied to the
concrete first-batch firing. -/
theorem lambda_k_fires_witness :
    ({ examples_seen := 10, call_after_first_batch := true,
       examples_seen_since_last_call := 0, k := 100,
       calls := 1 } : LambdaKState).examples_seen_since_last_call = 0 :=
  lambda_k_fires_at_1_and_12.2 (LambdaK.init 100 true) 1 [("size", 10)] _
    (by norm_num [LambdaK.on_batch_end, LambdaK.init, Logs.get, List.find?])

/-- C4: `__getstate__` followed by `__setstate__` on an object holding live
model and optimizer handles restores exactly the original callback with those
handles rebound: `best`, `epochs_since_last_save` and the comparison operator
are preserved, and every subsequent `on_epoch_end` behaves as the original
callback would with the rebound model and optimizer. -/
theorem mc_getstate_setstate_roundtrip (c self : ModelCheckpoint) :
    ModelCheckpoint.setstate self (ModelCheckpoint.getstate c) =
      { c with model := self.model, optimizer := self.optimizer } ∧
    (ModelCheckpoint.setstate self (ModelCheckpoint.getstate c)).best = c.best ∧
    (ModelCheckpoint.setstate self (ModelCheckpoint.getstate c)).epochs_since_last_save =
      c.epochs_since_last_save ∧
    (ModelCheckpoint.setstate self (ModelCheckpoint.getstate c)).monitor_op = c.monitor_op ∧
    (ModelCheckpoint.setstate self (ModelCheckpoint.getstate c)).model = self.model ∧
    (ModelCheckpoint.setstate self (ModelCheckpoint.getstate c)).optimizer = self.optimizer ∧
    ∀ (epoch : ℕ) (logs : Logs),
      (ModelCheckpoint.setstate self (ModelCheckpoint.getstate c)).on_epoch_end epoch logs =
      ({ c with model := self.model,
                optimizer := self.optimizer } : ModelCheckpoint).on_epoch_end epoch logs :=
  ⟨rfl, rfl, rfl, rfl, rfl, rfl, fun _ _ => rfl⟩

/-- The break-on-first-match loop of the source computes exactly the rate the
spec describes: first entry with threshold strictly above the epoch, else the
last entry. -/
theorem lrSelect_eq_specLRRate (schedule : List (ℕ × ℚ)) (epoch : ℕ) :
    lrSelect schedule epoch = specLRRate schedule epoch := by
  induction schedule with
  | nil => rfl
  | cons p rest ih =>
    cases rest with
    | nil =>
      obtain ⟨e, v⟩ := p
      by_cases h : epoch < e
      · simp [lrSelect, specLRRate, List.find?, h]
      · simp [lrSelect, specLRRate, List.find?, h]
    | cons q rest2 =>
      obtain ⟨e, v⟩ := p
      by_cases h : epoch < e
      · simp [lrSelect, specLRRate, List.find?, h]
      · rw [lrSelect, if_neg h, ih]
        simp [specLRRate, List.find?, h, List.getLast?_cons_cons]

/-- C5: for a non-empty schedule sorted by threshold, `on_epoch_begin` writes
into every parameter group the rate of the first entry whose threshold is
strictly greater than the epoch (the last entry on fallthrough), and on the
spec example `[(10, 0.1), (20, 0.01)]` epochs 5, 15, 25 set 0.1, 0.01, 0.01. -/
theorem lr_schedule_first_threshold (schedule : List (ℕ × ℚ)) (epoch : ℕ)
    (param_groups : List ℚ) (hne : schedule ≠ [])
    (hsorted : List.Chain' (fun a b : ℕ × ℚ => a.1 < b.1) schedule) :
    (LRSchedule.on_epoch_begin schedule epoch param_groups =
      (specLRRate schedule epoch).map (fun v => param_groups.map (fun _ => v))) ∧
    (specLRRate schedule epoch).isSome = true ∧
    LRSchedule.on_epoch_begin [(10, 1/10), (20, 1/100)] 5 [1] = some [1/10] ∧
    LRSchedule.on_epoch_begin [(10, 1/10), (20, 1/100)] 15 [1] = some [1/100] ∧
    LRSchedule.on_epoch_begin [(10, 1/10), (20, 1/100)] 25 [1] = some [1/100] := by
  refine ⟨?_, ?_, ?_, ?_, ?_⟩
  · unfold LRSchedule.on_epoch_begin
    rw [lrSelect_eq_specLRRate]
    cases specLRRate schedule epoch <;> simp
  · rw [← lrSelect_eq_specLRRate]
    induction schedule with
    | nil => exact absurd rfl hne
    | cons p rest ih =>
      cases rest with
      | nil =>
        obtain ⟨e, v⟩ := p
        simp [lrSelect]
      | cons q rest2 =>
        obtain ⟨e, v⟩ := p
        by_cases h : epoch < e
        · simp [lrSelect, h]
        · rw [lrSelect, if_neg h]
          exact ih (by simp) hsorted.tail
  · norm_num [LRSchedule.on_epoch_begin, lrSelect]
  · norm_num [LRSchedule.on_epoch_begin, lrSelect]
  · norm_num [LRSchedule.on_epoch_begin, lrSelect]

/-- C5 witness: the theorem applied to the spec example schedule at epoch 15. -/
theorem lr_schedule_first_threshold_witness :
    (LRSchedule.on_epoch_begin [(10, 1/10), (20, 1/100)] 15 [1, 1] =
      (specLRRate [(10, 1/10), (20, 1/100)] 15).map (fun v => [1, 1].map (fun _ => v))) ∧
    (specLRRate [(10, 1/10), (20, 1/100)] 15).isSome = true :=
  ⟨(lr_schedule_first_threshold [(10, 1/10), (20, 1/100)] 15 [1, 1] (by simp)
      (by simp [List.chain'_cons])).1,
   (lr_schedule_first_threshold [(10, 1/10), (20, 1/100)] 15 [1, 1] (by simp)
      (by simp [List.chain'_cons])).2.1⟩

/-- C6: if the FINISHED sentinel exists and `force_train` is off,
`on_train_begin` exits with success status before any document is written;
with `force_train` on it proceeds (the entry script is copied successfully)
and overwrites both the config and the meta documents. -/
theorem meta_saver_sentinel_exit (force_train : Bool) (save_path : String) (fs : MetaFS)
    (cp_ok : Bool) (cmd utc_date : String) (time_start : ℚ) (config : String) :
    (fs.finished_exists = true → force_train = false →
      MetaSaver.on_train_begin force_train save_path fs cp_ok cmd utc_date time_start config =
        MetaBeginResult.exitSuccess) ∧
    (force_train = true → cp_ok = true →
      MetaSaver.on_train_begin force_train save_path fs cp_ok cmd utc_date time_start config =
        MetaBeginResult.ok
          { fs with script_copied := true,
                    config_json := some config,
                    meta_json := some { cmd := cmd, save_path := save_path,
                                        start_utc_date := utc_date,
                                        execution_time := -time_start } }) := by
  constructor
  · intro h1 h2
    simp [MetaSaver.on_train_begin, h1, h2]
  · intro h1 h2
    simp [MetaSaver.on_train_begin, h1, h2]

/-- C6 witness: a directory holding the sentinel with stale documents; without
`force_train` the saver exits, with `force_train` it overwrites both documents. -/
theorem meta_saver_sentinel_exit_witness :
    (MetaSaver.on_train_begin false "out" ⟨true, false, some "old", none⟩ true
        "python run.py" "2026_10_12" 1 "cfg" = MetaBeginResult.exitSuccess) ∧
    (MetaSaver.on_train_begin true "out" ⟨true, false, some "old", none⟩ true
        "python run.py" "2026_10_12" 1 "cfg" =
      MetaBeginResult.ok ⟨true, true, some "cfg",
        some ⟨"python run.py", "out", "2026_10_12", -1⟩⟩) :=
  ⟨(meta_saver_sentinel_exit false "out" ⟨true, false, some "old", none⟩ true
      "python run.py" "2026_10_12" 1 "cfg").1 rfl rfl,
   (meta_saver_sentinel_exit true "out" ⟨true, false, some "old", none⟩ true
      "python run.py" "2026_10_12" 1 "cfg").2 rfl rfl⟩

/-- C7: a logs map without the `size` key makes `on_batch_end` of a History
with batch saving enabled and of LambdaCallbackPickableEveryKExamples fail at
the `assert "size" in logs` (modelled by `none`) instead of counting examples. -/
theorem missing_size_asserts (h : History) (s : LambdaKState) (batch : ℕ) (logs : Logs)
    (hK : h.save_every_k_examples ≠ -1) (hmiss : Logs.get logs "size" = none) :
    History.on_batch_end h logs = none ∧ LambdaK.on_batch_end s batch logs = none := by
  constructor
  · simp [History.on_batch_end, hK, hmiss]
  · unfold LambdaK.on_batch_end
    rw [hmiss]

/-- C7 witness: a History with threshold 5 and the wrapped-lambda callback,
driven with logs that carry only a `loss` entry. -/
theorem missing_size_asserts_witness :
    (History.init 5).save_every_k_examples ≠ -1 ∧
    History.on_batch_end (History.init 5) [("loss", 1)] = none ∧
    LambdaK.on_batch_end (LambdaK.init 100 true) 1 [("loss", 1)] = none :=
  ⟨by norm_num [History.init],
   (missing_size_asserts (History.init 5) (LambdaK.init 100 true) 1 [("loss", 1)]
      (by norm_num [History.init]) (by decide)).1,
   (missing_size_asserts (History.init 5) (LambdaK.init 100 true) 1 [("loss", 1)]
      (by norm_num [History.init]) (by decide)).2⟩

/-- C8: with `save_best_only` on, when the monitored metric is absent from the
logs at an evaluated epoch end, the callback only logs the warning: nothing is
saved, `best` and every other field are untouched apart from the cadence
counter reset, and the call returns normally. -/
theorem mc_missing_monitor_skips (c : ModelCheckpoint) (epoch : ℕ) (logs : Logs)
    (hbest : c.save_best_only = true)
    (hmiss : Logs.get logs c.monitor = none)
    (heval : c.epochs_since_last_save + 1 ≥ c.period) :
    c.on_epoch_end epoch logs =
      { state := { c with epochs_since_last_save := 0 }, saved := false, warned := true } := by
  simp [ModelCheckpoint.on_epoch_end, hbest, hmiss, heval]

/-- C8 witness: a min-mode checkpoint watching `val_loss` fed logs that only
contain `loss`. -/
theorem mc_missing_monitor_skips_witness :
    (ModelCheckpoint.init "w" 0 0 "val_loss" 0 true "min" 1).on_epoch_end 0 [("loss", 1)] =
      { state := { ModelCheckpoint.init "w" 0 0 "val_loss" 0 true "min" 1 with
                     epochs_since_last_save := 0 },
        saved := false, warned := true } :=
  mc_missing_monitor_skips (ModelCheckpoint.init "w" 0 0 "val_loss" 0 true "min" 1)
    0 [("loss", 1)] (by decide) (by decide) (by decide)

/-- C9: a min-mode checkpoint (initial best +infinity, period 1,
save_best_only) fed monitor values [5, 3, 4, 2] saves on calls 1, 2 and 4 but
not 3 and ends with best = 2; and in general `best` changes in a call only
when the configured comparison operator judges the new value strictly better
than the current best. -/
theorem mc_min_sequence_and_best_change :
    (runMC (ModelCheckpoint.init "w" 0 0 "val_loss" 0 true "min" 1) 0 [5, 3, 4, 2]).2 =
        [true, true, false, true] ∧
    (runMC (ModelCheckpoint.init "w" 0 0 "val_loss" 0 true "min" 1) 0 [5, 3, 4, 2]).1.best =
        NpVal.val 2 ∧
    ∀ (c : ModelCheckpoint) (epoch : ℕ) (logs : Logs),
      (c.on_epoch_end epoch logs).state.best ≠ c.best →
      c.monitor_op.apply (c.on_epoch_end epoch logs).state.best c.best = true := by
  refine ⟨by decide, by decide, ?_⟩
  intro c epoch logs hne
  by_cases hp : c.epochs_since_last_save + 1 ≥ c.period
  · by_cases hb : c.save_best_only = true
    · cases hm : Logs.get logs c.monitor with
      | none =>
        exact absurd (by simp [ModelCheckpoint.on_epoch_end, hp, hb, hm]) hne
      | some current =>
        by_cases hop : c.monitor_op.apply (NpVal.val current) c.best = true
        · simp [ModelCheckpoint.on_epoch_end, hp, hb, hm, hop]
        · exact absurd (by simp [ModelCheckpoint.on_epoch_end, hp, hb, hm, hop]) hne
    · exact absurd (by by_cases hv : c.verbose > 0 <;>
        simp [ModelCheckpoint.on_epoch_end, hp, hb, hv]) hne
  · exact absurd (by simp [ModelCheckpoint.on_epoch_end, hp]) hne

/-- C9 witness: the best-change clause applied to the first call of the
concrete sequence, where best moves from +infinity to 5. -/
theorem mc_best_change_witness :
    ((ModelCheckpoint.init "w" 0 0 "val_loss" 0 true "min" 1).on_epoch_end 0
        [("val_loss", 5)]).state.best ≠
      (ModelCheckpoint.init "w" 0 0 "val_loss" 0 true "min" 1).best ∧
    (ModelCheckpoint.init "w" 0 0 "val_loss" 0 true "min" 1).monitor_op.apply
      ((ModelCheckpoint.init "w" 0 0 "val_loss" 0 true "min" 1).on_epoch_end 0
        [("val_loss", 5)]).state.best
      (ModelCheckpoint.init "w" 0 0 "val_loss" 0 true "min" 1).best = true :=
  ⟨by decide,
   mc_min_sequence_and_best_change.2.2 (ModelCheckpoint.init "w" 0 0 "val_loss" 0 true "min" 1)
     0 [("val_loss", 5)] (by decide)⟩

/-- C10: a mode string outside auto/min/max is silently replaced by `auto`
(the constructor never raises), and the auto inference picks `max`
(np.greater, best = -infinity) when the monitor name contains `acc`, else
`min` (np.less, best = +infinity). -/
theorem mc_invalid_mode_auto_fallback (mode : String)
    (hmode : mode ≠ "auto" ∧ mode ≠ "min" ∧ mode ≠ "max") :
    (∀ (fp : String) (m o : ℕ) (mon : String) (v : ℕ) (sbo : Bool) (per : ℕ),
      ModelCheckpoint.init fp m o mon v sbo mode per =
        ModelCheckpoint.init fp m o mon v sbo "auto" per) ∧
    (ModelCheckpoint.init "w" 0 0 "val_acc" 0 true mode 1).monitor_op = MonitorOp.greater ∧
    (ModelCheckpoint.init "w" 0 0 "val_acc" 0 true mode 1).best = NpVal.negInf ∧
    (ModelCheckpoint.init "w" 0 0 "val_loss" 0 true mode 1).monitor_op = MonitorOp.less ∧
    (ModelCheckpoint.init "w" 0 0 "val_loss" 0 true mode 1).best = NpVal.posInf := by
  obtain ⟨h1, h2, h3⟩ := hmode
  have hb1 : (mode == "auto") = false := beq_eq_false_iff_ne.mpr h1
  have hb2 : (mode == "min") = false := beq_eq_false_iff_ne.mpr h2
  have hb3 : (mode == "max") = false := beq_eq_false_iff_ne.mpr h3
  have hmain : ∀ (fp : String) (m o : ℕ) (mon : String) (v : ℕ) (sbo : Bool) (per : ℕ),
      ModelCheckpoint.init fp m o mon v sbo mode per =
        ModelCheckpoint.init fp m o mon v sbo "auto" per := by
    intro fp m o mon v sbo per
    simp [ModelCheckpoint.init, hb1, hb2, hb3]
  refine ⟨hmain, ?_, ?_, ?_, ?_⟩ <;> rw [hmain] <;> decide

/-- C10 witness: the fallback at the invalid mode string `banana`. -/
theorem mc_invalid_mode_auto_fallback_witness :
    ModelCheckpoint.init "w" 0 0 "val_acc" 0 true "banana" 1 =
      ModelCheckpoint.init "w" 0 0 "val_acc" 0 true "auto" 1 ∧
    (ModelCheckpoint.init "w" 0 0 "val_acc" 0 true "banana" 1).monitor_op =
      MonitorOp.greater :=
  ⟨(mc_invalid_mode_auto_fallback "banana" (by decide)).1 "w" 0 0 "val_acc" 0 true 1,
   (mc_invalid_mode_auto_fallback "banana" (by decide)).2.1⟩

/-- Setting the model attribute is idempotent: the conditional `setattr` of the
source always leaves the flag set. -/
theorem history_flag_update (h : History) :
    (if h.model_has_history_batch then h else { h with model_has_history_batch := true })
      = { h with model_has_history_batch := true } := by
  cases h with
  | mk a b c d e f => cases f <;> simp

/-- Appending under a key extends exactly that key's accumulated list. -/
theorem entryList_appendEntry_self (m : Accum) (key : String) (v : ℚ) :
    entryList (appendEntry m key v) key = entryList m key ++ [v] := by
  induction m with
  | nil => simp [appendEntry, entryList]
  | cons p rest ih =>
    obtain ⟨k, vs⟩ := p
    by_cases hk : (k == key) = true
    · simp [appendEntry, entryList, hk]
    · rw [Bool.not_eq_true] at hk
      simp [appendEntry, entryList, hk, ih]

/-- Appending under one key leaves every other key's accumulated list alone. -/
theorem entryList_appendEntry_ne (m : Accum) (key qk : String) (v : ℚ)
    (hne : (key == qk) = false) :
    entryList (appendEntry m key v) qk = entryList m qk := by
  induction m with
  | nil => simp [appendEntry, entryList, hne]
  | cons p rest ih =>
    obtain ⟨k, vs⟩ := p
    by_cases hk : (k == key) = true
    · have hkey : k = key := by simpa using hk
      subst hkey
      simp [appendEntry, entryList, hk, hne]
    · rw [Bool.not_eq_true] at hk
      simp [appendEntry, entryList, hk, ih]

/-- Successor step of mod/div when the remainder does not complete a period. -/
theorem mod_div_succ_lt (n P : ℕ) (h : n % P + 1 < P) :
    (n + 1) % P = n % P + 1 ∧ (n + 1) / P = n / P := by
  have hP : 0 < P := by omega
  have hd := Nat.div_add_mod n P
  have hn : n + 1 = P * (n / P) + (n % P + 1) := by omega
  constructor
  · rw [hn, Nat.mul_add_mod, Nat.mod_eq_of_lt h]
  · rw [hn, Nat.mul_add_div hP, Nat.div_eq_of_lt h]
    omega

/-- Successor step of mod/div when the remainder completes a period. -/
theorem mod_div_succ_eq (n P : ℕ) (hP : 0 < P) (h : n % P + 1 = P) :
    (n + 1) % P = 0 ∧ (n + 1) / P = n / P + 1 := by
  have hd := Nat.div_add_mod n P
  have hn : n + 1 = P * (n / P + 1) := by
    rw [Nat.mul_add, Nat.mul_one]
    omega
  constructor
  · rw [hn, Nat.mul_mod_right]
  · rw [hn, Nat.mul_div_cancel_left _ hP]

/-- One enabled `History.on_batch_end` step with `size` present: counters grow
by the batch size, the running total is written into the logs, and the batch
accumulator receives every log entry exactly when the since-last-population
counter strictly exceeds the threshold, in which case that counter resets. -/
theorem history_step (h : History) (logs : Logs) (size : ℚ)
    (hK : h.save_every_k_examples ≠ -1) (hs : Logs.get logs "size" = some size) :
    History.on_batch_end h logs =
      (let logs2 := Logs.set logs "examples_seen" (h.examples_seen + size);
       if h.examples_seen_since_last_population + size > h.save_every_k_examples then
         some ({ h with model_has_history_batch := true,
                        examples_seen := h.examples_seen + size,
                        examples_seen_since_last_population := 0,
                        history_batch := appendLogs logs2 h.history_batch }, logs2)
       else
         some ({ h with model_has_history_batch := true,
                        examples_seen := h.examples_seen + size,
                        examples_seen_since_last_population :=
                          h.examples_seen_since_last_population + size }, logs2)) := by
  unfold History.on_batch_end
  rw [if_pos hK, history_flag_update, hs]

/-- Driving a fresh History with threshold K through n batches of constant
size B: the since-last-population counter cycles through multiples of B below
the period K / B + 1, and the batch accumulator has been populated once per
completed period. -/
theorem runHistory_invariant (K B : ℕ) (hB : 0 < B) (n : ℕ) :
    ∃ h, runHistoryBatches (History.init (K : ℚ)) [("size", (B : ℚ))] n = some h ∧
      h.save_every_k_examples = (K : ℚ) ∧
      h.examples_seen_since_last_population = ((n % (K / B + 1)) * B : ℕ) ∧
      (entryList h.history_batch "size").length = n / (K / B + 1) := by
  induction n with
  | zero =>
    refine ⟨History.init (K : ℚ), rfl, rfl, ?_, ?_⟩
    · simp [History.init]
    · simp [History.init, entryList]
  | succ n ih =>
    obtain ⟨h, hrun, hsave, hsince, hlen⟩ := ih
    have hP : 0 < K / B + 1 := Nat.succ_pos _
    have hne : h.save_every_k_examples ≠ -1 := by
      rw [hsave]
      intro hc
      have h0 : (0 : ℚ) ≤ (K : ℚ) := Nat.cast_nonneg K
      rw [hc] at h0
      norm_num at h0
    have hget : Logs.get [("size", (B : ℚ))] "size" = some (B : ℚ) := by
      simp [Logs.get, List.find?]
    have hset : Logs.set [("size", (B : ℚ))] "examples_seen" (h.examples_seen + (B : ℚ)) =
        [("size", (B : ℚ)), ("examples_seen", h.examples_seen + (B : ℚ))] := by
      simp [Logs.set]
    have hstep := history_step h [("size", (B : ℚ))] (B : ℚ) hne hget
    rw [runHistoryBatches, hrun]
    dsimp only
    rw [hstep]
    dsimp only
    rw [hsince, hsave, hset]
    have hcond : (((n % (K / B + 1)) * B : ℕ) : ℚ) + (B : ℚ) > (K : ℚ) ↔
        K < (n % (K / B + 1) + 1) * B := by
      rw [gt_iff_lt, show (((n % (K / B + 1)) * B : ℕ) : ℚ) + (B : ℚ) =
            (((n % (K / B + 1) + 1) * B : ℕ) : ℚ) by push_cast; ring, Nat.cast_lt]
    by_cases hfire : K < (n % (K / B + 1) + 1) * B
    · rw [if_pos (hcond.mpr hfire)]
      have hmod : n % (K / B + 1) + 1 = K / B + 1 := by
        have h1 : K / B < n % (K / B + 1) + 1 := (Nat.div_lt_iff_lt_mul hB).mpr hfire
        have h2 : n % (K / B + 1) < K / B + 1 := Nat.mod_lt _ hP
        omega
      obtain ⟨hm, hdv⟩ := mod_div_succ_eq n (K / B + 1) hP hmod
      refine ⟨_, rfl, rfl, ?_, ?_⟩
      · simp [hm]
      · rw [hdv, ← hlen]
        simp only [appendLogs, List.foldl]
        rw [entryList_appendEntry_ne _ "examples_seen" "size" _ (by decide),
          entryList_appendEntry_self]
        simp
    · rw [if_neg (fun hc => hfire (hcond.mp hc))]
      have hmod : n % (K / B + 1) + 1 < K / B + 1 := by
        have h1 : n % (K / B + 1) + 1 ≤ K / B :=
          (Nat.le_div_iff_mul_le hB).mpr (by omega)
        omega
      obtain ⟨hm, hdv⟩ := mod_div_succ_lt n (K / B + 1) hmod
      refine ⟨_, rfl, rfl, ?_, ?_⟩
      · rw [hm]
        push_cast
        ring
      · rw [hdv, ← hlen]

/-- C3 counterexample: with K = 10 and constant batch size B = 10,
ceil(K/B) = 1, yet after 1 call to `on_batch_end` the batch accumulator is
still empty, because the since-last-population counter equals exactly K and
the source requires it to strictly exceed K; the first population only
happens at call 2. -/
theorem history_no_population_at_ceil :
    (10 + 10 - 1) / 10 = 1 ∧ histPops 10 10 1 = some 0 ∧ histPops 10 10 2 = some 1 := by
  refine ⟨by norm_num, ?_, ?_⟩ <;>
    norm_num [histPops, runHistoryBatches, History.on_batch_end, History.init,
      Logs.get, Logs.set, List.find?, appendLogs, appendEntry, entryList]

/-- C3 (amended): with batch saving enabled, the batch accumulator receives
the log entries exactly when the example count since the last population
strictly exceeds the threshold, after which that counter resets to 0; hence
for K > 0 and constant batch size B > 0 a population occurs every
floor(K/B) + 1 calls (which is ceil(K/B) unless B divides K). -/
theorem history_population_cadence :
    (∀ (h : History) (logs : Logs) (size : ℚ),
        h.save_every_k_examples ≠ -1 → Logs.get logs "size" = some size →
        History.on_batch_end h logs =
          (let logs2 := Logs.set logs "examples_seen" (h.examples_seen + size);
           if h.examples_seen_since_last_population + size > h.save_every_k_examples then
             some ({ h with model_has_history_batch := true,
                            examples_seen := h.examples_seen + size,
                            examples_seen_since_last_population := 0,
                            history_batch := appendLogs logs2 h.history_batch }, logs2)
           else
             some ({ h with model_has_history_batch := true,
                            examples_seen := h.examples_seen + size,
                            examples_seen_since_last_population :=
                              h.examples_seen_since_last_population + size }, logs2))) ∧
    (∀ (K B n : ℕ), 0 < K → 0 < B →
        histPops K B n = some (n / (K / B + 1))) := by
  constructor
  · exact history_step
  · intro K B n hK hB
    obtain ⟨h, hrun, hsave, hsince, hlen⟩ := runHistory_invariant K B hB n
    unfold histPops
    rw [hrun]
    simp [hlen]

/-- C3 witness: one enabled step with threshold 5 and batch size 10 populates
immediately and resets the counter; with K = 10, B = 3, population count after
7 batches is 7 / (10/3 + 1) = 1. -/
theorem history_population_witness :
    History.on_batch_end (History.init 5) [("size", 10)] =
      some ({ examples_seen := 10, save_every_k_examples := 5,
              examples_seen_since_last_population := 0, history := [],
              history_batch := [("size", [10]), ("examples_seen", [10])],
              model_has_history_batch := true },
            [("size", 10), ("examples_seen", 10)]) ∧
    histPops 10 3 7 = some 1 :=
  ⟨(history_population_cadence.1 (History.init 5) [("size", 10)] 10
      (by norm_num [History.init]) (by simp [Logs.get, List.find?])).trans
      (by norm_num [History.init, Logs.set, appendLogs, appendEntry, List.foldl,
        (by decide : ¬("size" = "examples_seen"))]),
   (history_population_cadence.2 10 3 7 (by decide) (by decide)).trans (by norm_num)⟩
